import Mathlib

set_option maxRecDepth 100000

/-!
Verification of the overloaded-literals compile-time dispatch system
(src/overloaded_literals/src/lib.rs).

Modelling conventions:
* A Rust built-in integer type is a `RustIntTy` (bit width plus signedness);
  `usize`/`isize` are modelled at the 64-bit pointer width this crate builds at.
* `u128` values are `Nat` below `2 ^ 128`; `i128` values are `Int` in
  `[-2 ^ 127, 2 ^ 127)`.
* A compile-time `panic!` in a constant is modelled as `Option.none`: the
  `VALID_LITERAL` constants return `none` exactly when const evaluation would
  abort compilation.
* Rust `as` casts between integer types are modelled explicitly (`asU128`,
  `asI128`, `u128AsType`, `i128AsType`) as wrap-around conversions.
* `&str` values are modelled as their UTF-8 byte sequences, i.e. `List Nat`
  with every element below 256; `const_str_eq` and the `Greeting` impl compare
  those byte lists exactly as the source compares bytes.
-/

/-- A Rust built-in integer type: its bit width and whether it is signed. -/
structure RustIntTy where
  width : Nat
  signed : Bool
deriving DecidableEq

def u8 : RustIntTy := ⟨8, false⟩

def u16 : RustIntTy := ⟨16, false⟩

def u32 : RustIntTy := ⟨32, false⟩

def u64 : RustIntTy := ⟨64, false⟩

def u128 : RustIntTy := ⟨128, false⟩

/-- Rust usize at the 64-bit pointer width of the targets this crate builds for. -/
def usize : RustIntTy := ⟨64, false⟩

def i8 : RustIntTy := ⟨8, true⟩

def i16 : RustIntTy := ⟨16, true⟩

def i32 : RustIntTy := ⟨32, true⟩

def i64 : RustIntTy := ⟨64, true⟩

def i128 : RustIntTy := ⟨128, true⟩

/-- Rust isize at the 64-bit pointer width of the targets this crate builds for. -/
def isize : RustIntTy := ⟨64, true⟩

/-- The value T::MIN as a mathematical integer. -/
def tyMin (t : RustIntTy) : Int :=
  if t.signed then -(2 ^ (t.width - 1)) else 0

/-- The value T::MAX as a mathematical integer. -/
def tyMax (t : RustIntTy) : Int :=
  if t.signed then 2 ^ (t.width - 1) - 1 else 2 ^ t.width - 1

/-- Rust `x as u128` for `x` a value of any built-in integer type of width
at most 128: sign-extension followed by reinterpretation, i.e. reduction
modulo `2 ^ 128`. -/
def asU128 (x : Int) : Nat :=
  (x % (2 ^ 128 : Int)).toNat

/-- Rust `x as i128` for `x` a value of any built-in integer type of width
at most 128: the two's-complement reinterpretation of `x mod 2 ^ 128`. -/
def asI128 (x : Int) : Int :=
  let r := x % (2 ^ 128 : Int)
  if r < 2 ^ 127 then r else r - 2 ^ 128

/-- Rust `v as T` for `v : u128`: truncation to `T.width` bits, then
two's-complement reinterpretation when `T` is signed. -/
def u128AsType (t : RustIntTy) (v : Nat) : Int :=
  let r := v % 2 ^ t.width
  if t.signed = true ∧ 2 ^ (t.width - 1) ≤ r then (r : Int) - 2 ^ t.width
  else (r : Int)

/-- Rust `v as T` for `v : i128`: truncation to `T.width` bits, then
two's-complement reinterpretation when `T` is signed. -/
def i128AsType (t : RustIntTy) (v : Int) : Int :=
  let r := v % (2 ^ t.width : Int)
  if t.signed = true ∧ (2 ^ (t.width - 1) : Int) ≤ r then r - 2 ^ t.width
  else r

/-- The body of `unsigned_impl!`'s `VALID_LITERAL` for target type `t`:
`min`/`max` are `<T>::MIN as u128` / `<T>::MAX as u128`, and the literal
panics (`none`) when `LIT < min || LIT > max`. -/
def FromLiteralUnsigned.VALID_LITERAL (t : RustIntTy) (LIT : Nat) : Option Nat :=
  let min := asU128 (tyMin t)
  let max := asU128 (tyMax t)
  if LIT < min ∨ max < LIT then none else some LIT

/-- The body of `unsigned_impl!`'s `into_self` for target type `t`:
`VALID_LITERAL as T` (defined only when the constant evaluated). -/
def FromLiteralUnsigned.into_self (t : RustIntTy) (LIT : Nat) : Option Int :=
  (FromLiteralUnsigned.VALID_LITERAL t LIT).map (u128AsType t)

/-- The body of `signed_impl!`'s `VALID_LITERAL` for target type `t`:
`min`/`max` are `<T>::MIN as i128` / `<T>::MAX as i128`, and the literal
panics (`none`) when `LIT < min || LIT > max`. -/
def FromLiteralSigned.VALID_LITERAL (t : RustIntTy) (LIT : Int) : Option Int :=
  let min := asI128 (tyMin t)
  let max := asI128 (tyMax t)
  if LIT < min ∨ max < LIT then none else some LIT

/-- The body of `signed_impl!`'s `into_self` for target type `t`:
`VALID_LITERAL as T`. -/
def FromLiteralSigned.into_self (t : RustIntTy) (LIT : Int) : Option Int :=
  (FromLiteralSigned.VALID_LITERAL t LIT).map (i128AsType t)

/-- NonZero new_unchecked: wraps its argument unchecked; the compile-time
checks guarantee the argument is nonzero whenever it is reached. -/
def new_unchecked (n : Int) : Int := n

/-- The body of `nonzero_unsigned_impl!`'s `VALID_LITERAL`, with `orig` the
host integer type: panics when `LIT == 0`, then when `LIT > MAX as u128`. -/
def NonZeroFromLiteralUnsigned.VALID_LITERAL (orig : RustIntTy) (LIT : Nat) :
    Option Nat :=
  let max := asU128 (tyMax orig)
  if LIT = 0 then none
  else if max < LIT then none
  else some LIT

/-- The body of `nonzero_unsigned_impl!`'s `into_self`:
`new_unchecked (VALID_LITERAL as orig)`. -/
def NonZeroFromLiteralUnsigned.into_self (orig : RustIntTy) (LIT : Nat) :
    Option Int :=
  (NonZeroFromLiteralUnsigned.VALID_LITERAL orig LIT).map fun v =>
    new_unchecked (u128AsType orig v)

/-- The body of `nonzero_signed_impl!`'s `VALID_LITERAL`, with `orig` the
host integer type: panics when `LIT == 0`, then when `LIT` is outside
`[MIN as i128, MAX as i128]`. -/
def NonZeroFromLiteralSigned.VALID_LITERAL (orig : RustIntTy) (LIT : Int) :
    Option Int :=
  let min := asI128 (tyMin orig)
  let max := asI128 (tyMax orig)
  if LIT = 0 then none
  else if LIT < min ∨ max < LIT then none
  else some LIT

/-- The body of `nonzero_signed_impl!`'s `into_self`:
`new_unchecked (VALID_LITERAL as orig)`. -/
def NonZeroFromLiteralSigned.into_self (orig : RustIntTy) (LIT : Int) :
    Option Int :=
  (NonZeroFromLiteralSigned.VALID_LITERAL orig LIT).map fun v =>
    new_unchecked (i128AsType orig v)


section Helpers

theorem two_pow_le_int (a b : Nat) (h : a ≤ b) : (2 : Int) ^ a ≤ 2 ^ b :=
  pow_le_pow_right₀ (by norm_num) h

theorem two_pow_cast (w : Nat) : (((2 : Nat) ^ w : Nat) : Int) = (2 : Int) ^ w := by
  push_cast
  ring

theorem asU128_tyMax_unsigned (w : Nat) (hw : w ≤ 128) :
    asU128 (tyMax ⟨w, false⟩) = 2 ^ w - 1 := by
  have hp : (2 : Int) ^ w ≤ 2 ^ 128 := two_pow_le_int w 128 hw
  have hq : (1 : Int) ≤ 2 ^ w := one_le_pow₀ (by norm_num)
  have hn := two_pow_cast w
  have hn' := two_pow_cast 128
  simp only [tyMax, asU128, Bool.false_eq_true, if_false]
  rw [Int.emod_eq_of_lt (by omega) (by omega)]
  omega

theorem asU128_tyMin_unsigned (w : Nat) :
    asU128 (tyMin ⟨w, false⟩) = 0 := by
  simp [tyMin, asU128]

end Helpers

section Helpers2

theorem asU128_tyMin_signed (w : Nat) (hw1 : 1 ≤ w) (hw : w ≤ 128) :
    asU128 (tyMin ⟨w, true⟩) = 2 ^ 128 - 2 ^ (w - 1) := by
  have hp : (2 : Int) ^ (w - 1) ≤ 2 ^ 127 := two_pow_le_int (w - 1) 127 (by omega)
  have hq : (1 : Int) ≤ 2 ^ (w - 1) := one_le_pow₀ (by norm_num)
  have hn := two_pow_cast (w - 1)
  have hn' := two_pow_cast 128
  have h127 : (2 : Int) ^ 127 * 2 = 2 ^ 128 := by norm_num [← pow_succ]
  simp only [tyMin, asU128, if_true]
  have hsplit : -((2 : Int) ^ (w - 1)) = (2 ^ 128 - 2 ^ (w - 1)) + 2 ^ 128 * (-1) := by
    ring
  rw [hsplit, Int.add_mul_emod_self_left, Int.emod_eq_of_lt (by omega) (by omega)]
  omega

theorem asU128_tyMax_signed (w : Nat) (hw1 : 1 ≤ w) (hw : w ≤ 128) :
    asU128 (tyMax ⟨w, true⟩) = 2 ^ (w - 1) - 1 := by
  have hp : (2 : Int) ^ (w - 1) ≤ 2 ^ 127 := two_pow_le_int (w - 1) 127 (by omega)
  have hq : (1 : Int) ≤ 2 ^ (w - 1) := one_le_pow₀ (by norm_num)
  have hn := two_pow_cast (w - 1)
  have hn' := two_pow_cast 128
  have h127 : (2 : Int) ^ 127 * 2 = 2 ^ 128 := by norm_num [← pow_succ]
  simp only [tyMax, asU128, if_true]
  rw [Int.emod_eq_of_lt (by omega) (by omega)]
  omega

theorem asI128_tyMin_signed (w : Nat) (hw1 : 1 ≤ w) (hw : w ≤ 128) :
    asI128 (tyMin ⟨w, true⟩) = -(2 ^ (w - 1)) := by
  have hp : (2 : Int) ^ (w - 1) ≤ 2 ^ 127 := two_pow_le_int (w - 1) 127 (by omega)
  have hq : (1 : Int) ≤ 2 ^ (w - 1) := one_le_pow₀ (by norm_num)
  have h127 : (2 : Int) ^ 127 * 2 = 2 ^ 128 := by norm_num [← pow_succ]
  simp only [tyMin, asI128, if_true]
  have hsplit : -((2 : Int) ^ (w - 1)) = (2 ^ 128 - 2 ^ (w - 1)) + 2 ^ 128 * (-1) := by
    ring
  rw [hsplit, Int.add_mul_emod_self_left, Int.emod_eq_of_lt (by omega) (by omega)]
  rw [if_neg (by omega)]
  omega

theorem asI128_tyMax_signed (w : Nat) (hw1 : 1 ≤ w) (hw : w ≤ 128) :
    asI128 (tyMax ⟨w, true⟩) = 2 ^ (w - 1) - 1 := by
  have hp : (2 : Int) ^ (w - 1) ≤ 2 ^ 127 := two_pow_le_int (w - 1) 127 (by omega)
  have hq : (1 : Int) ≤ 2 ^ (w - 1) := one_le_pow₀ (by norm_num)
  have h127 : (2 : Int) ^ 127 * 2 = 2 ^ 128 := by norm_num [← pow_succ]
  simp only [tyMax, asI128, if_true]
  rw [Int.emod_eq_of_lt (by omega) (by omega)]
  rw [if_pos (by omega)]

theorem u128AsType_eq_self (t : RustIntTy) (v : Nat) (hv : v < 2 ^ t.width)
    (hs : t.signed = true → v < 2 ^ (t.width - 1)) :
    u128AsType t v = (v : Int) := by
  unfold u128AsType
  rw [Nat.mod_eq_of_lt hv]
  rcases h : t.signed with _ | _
  · rw [if_neg (by simp [h])]
  · have := hs h
    have hn := two_pow_cast (t.width - 1)
    rw [if_neg (by push_neg; intro; omega)]

theorem i128AsType_eq_self_signed (w : Nat) (hw1 : 1 ≤ w) (v : Int)
    (hmin : -(2 ^ (w - 1)) ≤ v) (hmax : v ≤ 2 ^ (w - 1) - 1) :
    i128AsType ⟨w, true⟩ v = v := by
  have h2 : (2 : Int) ^ w = 2 ^ (w - 1) * 2 := by
    rw [← pow_succ]
    congr 1
    omega
  have hq : (1 : Int) ≤ 2 ^ (w - 1) := one_le_pow₀ (by norm_num)
  unfold i128AsType
  dsimp only
  rcases le_or_lt 0 v with hv | hv
  · rw [Int.emod_eq_of_lt hv (by omega)]
    rw [if_neg (by push_neg; intro; omega)]
  · have hsplit : v % (2 : Int) ^ w = ((v + 2 ^ w) + 2 ^ w * (-1)) % 2 ^ w := by
      ring_nf
    rw [hsplit, Int.add_mul_emod_self_left, Int.emod_eq_of_lt (by omega) (by omega)]
    rw [if_pos (by constructor; rfl; omega)]
    omega

end Helpers2

section ImplSpecs

theorem unsigned_VALID_spec (w : Nat) (hw : w ≤ 128) (L : Nat) :
    FromLiteralUnsigned.VALID_LITERAL ⟨w, false⟩ L =
      if 2 ^ w - 1 < L then none else some L := by
  unfold FromLiteralUnsigned.VALID_LITERAL
  rw [asU128_tyMin_unsigned w, asU128_tyMax_unsigned w hw]
  have h1 : 1 ≤ 2 ^ w := Nat.one_le_two_pow
  rcases le_or_lt L (2 ^ w - 1) with h | h
  · rw [if_neg (by omega), if_neg (by omega)]
  · rw [if_pos (by omega), if_pos (by omega)]

theorem unsigned_into_self_spec (w : Nat) (hw : w ≤ 128) (L : Nat) :
    FromLiteralUnsigned.into_self ⟨w, false⟩ L =
      if 2 ^ w - 1 < L then none else some (L : Int) := by
  unfold FromLiteralUnsigned.into_self
  rw [unsigned_VALID_spec w hw L]
  have h1 : 1 ≤ 2 ^ w := Nat.one_le_two_pow
  rcases le_or_lt L (2 ^ w - 1) with h | h
  · rw [if_neg (by omega), if_neg (by omega), Option.map_some']
    rw [u128AsType_eq_self ⟨w, false⟩ L (by dsimp only; omega) (by intro hc; cases hc)]
  · rw [if_pos (by omega), if_pos (by omega), Option.map_none']

theorem signed_VALID_spec (w : Nat) (hw1 : 1 ≤ w) (hw : w ≤ 128) (L : Int) :
    FromLiteralSigned.VALID_LITERAL ⟨w, true⟩ L =
      if L < -(2 ^ (w - 1)) ∨ 2 ^ (w - 1) - 1 < L then none else some L := by
  unfold FromLiteralSigned.VALID_LITERAL
  rw [asI128_tyMin_signed w hw1 hw, asI128_tyMax_signed w hw1 hw]

theorem signed_into_self_spec (w : Nat) (hw1 : 1 ≤ w) (hw : w ≤ 128) (L : Int) :
    FromLiteralSigned.into_self ⟨w, true⟩ L =
      if L < -(2 ^ (w - 1)) ∨ 2 ^ (w - 1) - 1 < L then none else some L := by
  unfold FromLiteralSigned.into_self
  rw [signed_VALID_spec w hw1 hw L]
  split_ifs with hc
  · rfl
  · push_neg at hc
    rw [Option.map_some']
    rw [i128AsType_eq_self_signed w hw1 L (by omega) (by omega)]

end ImplSpecs

/-- The unsigned built-in target types instantiated by `unsigned_impl!`. -/
def unsignedTypes : List RustIntTy := [u8, u16, u32, u64, u128, usize]

/-- The signed built-in target types instantiated by `signed_impl!`. -/
def signedTypes : List RustIntTy := [i8, i16, i32, i64, i128, isize]

/-- C1 (code bug): the spec routes plain positive literals for signed built-in
types through the unsigned contract and requires an in-range literal to
validate unchanged, in particular `FromLiteralUnsigned` at `LIT = 2` for `i8`
must yield 2 without aborting compilation. But `unsigned_impl!` computes
`min` as `<i8>::MIN as u128`, which wraps to `2 ^ 128 - 128`, so the `i8`
instance rejects the literal 2 — and in fact every `u128` literal — at
compile time. -/
theorem c1_unsigned_impl_i8_rejects_two :
    FromLiteralUnsigned.VALID_LITERAL i8 2 = none ∧
    asU128 (tyMin i8) = 2 ^ 128 - 128 ∧
    ∀ LIT : Nat, FromLiteralUnsigned.VALID_LITERAL i8 LIT = none := by
  have hmin : asU128 (tyMin i8) = 2 ^ 128 - 2 ^ 7 :=
    asU128_tyMin_signed 8 (by norm_num) (by norm_num)
  have hmax : asU128 (tyMax i8) = 2 ^ 7 - 1 :=
    asU128_tyMax_signed 8 (by norm_num) (by norm_num)
  have hall : ∀ LIT : Nat, FromLiteralUnsigned.VALID_LITERAL i8 LIT = none := by
    intro LIT
    unfold FromLiteralUnsigned.VALID_LITERAL
    rw [hmin, hmax]
    rw [if_pos (by omega)]
  refine ⟨hall 2, ?_, hall⟩
  rw [hmin]
  norm_num

theorem c2_helper (w : Nat) (hw : w ≤ 128) (L : Nat) :
    (FromLiteralUnsigned.into_self ⟨w, false⟩ L = some (L : Int) ↔
      L ≤ 2 ^ w - 1) ∧
    (2 ^ w - 1 < L → FromLiteralUnsigned.VALID_LITERAL ⟨w, false⟩ L = none) ∧
    FromLiteralUnsigned.into_self ⟨w, false⟩ (2 ^ w - 1) =
      some ((2 ^ w - 1 : Nat) : Int) := by
  refine ⟨?_, ?_, ?_⟩
  · rw [unsigned_into_self_spec w hw L]
    constructor
    · intro h
      by_contra hc
      rw [if_pos (by omega)] at h
      exact Option.noConfusion h
    · intro h
      rw [if_neg (by omega)]
  · intro h
    rw [unsigned_VALID_spec w hw L, if_pos h]
  · rw [unsigned_into_self_spec w hw _, if_neg (by omega)]

/-- C2: for every unsigned built-in target type of width W and every u128
literal L, the literal validates and `into_self` yields L as that type exactly
when L ≤ 2^W − 1; above that bound `VALID_LITERAL` panics; and the boundary
literal 2^W − 1 itself succeeds. -/
theorem c2_unsigned_builtin_range (t : RustIntTy) (ht : t ∈ unsignedTypes)
    (L : Nat) (hL : L < 2 ^ 128) :
    (FromLiteralUnsigned.into_self t L = some (L : Int) ↔
      L ≤ 2 ^ t.width - 1) ∧
    (2 ^ t.width - 1 < L → FromLiteralUnsigned.VALID_LITERAL t L = none) ∧
    FromLiteralUnsigned.into_self t (2 ^ t.width - 1) =
      some ((2 ^ t.width - 1 : Nat) : Int) := by
  simp only [unsignedTypes, List.mem_cons, List.not_mem_nil, or_false] at ht
  rcases ht with rfl | rfl | rfl | rfl | rfl | rfl
  · exact c2_helper 8 (by norm_num) L
  · exact c2_helper 16 (by norm_num) L
  · exact c2_helper 32 (by norm_num) L
  · exact c2_helper 64 (by norm_num) L
  · exact c2_helper 128 (by norm_num) L
  · exact c2_helper 64 (by norm_num) L

/-- Witness for C2 at the concrete instance `u8`, `L = 300`. -/
theorem c2_unsigned_builtin_range_witness :
    u8 ∈ unsignedTypes ∧ (300 : Nat) < 2 ^ 128 ∧
    ((FromLiteralUnsigned.into_self u8 300 = some ((300 : Nat) : Int) ↔
      300 ≤ 2 ^ u8.width - 1) ∧
    (2 ^ u8.width - 1 < 300 → FromLiteralUnsigned.VALID_LITERAL u8 300 = none) ∧
    FromLiteralUnsigned.into_self u8 (2 ^ u8.width - 1) =
      some ((2 ^ u8.width - 1 : Nat) : Int)) :=
  ⟨by decide, by norm_num,
    c2_unsigned_builtin_range u8 (by decide) 300 (by norm_num)⟩

theorem c3_helper (w : Nat) (hw1 : 1 ≤ w) (hw : w ≤ 128) (L : Int) :
    (FromLiteralSigned.into_self ⟨w, true⟩ L = some L ↔
      -(2 ^ (w - 1)) ≤ L ∧ L ≤ 2 ^ (w - 1) - 1) ∧
    ((L < -(2 ^ (w - 1)) ∨ 2 ^ (w - 1) - 1 < L) →
      FromLiteralSigned.VALID_LITERAL ⟨w, true⟩ L = none) := by
  constructor
  · rw [signed_into_self_spec w hw1 hw L]
    constructor
    · intro h
      by_contra hc
      push_neg at hc
      rw [if_pos (by omega)] at h
      exact Option.noConfusion h
    · intro h
      rw [if_neg (by omega)]
  · intro h
    rw [signed_VALID_spec w hw1 hw L, if_pos h]

/-- C3: for every signed built-in target type of width W and every i128
literal L, the literal validates and `into_self` yields L as that type exactly
when −2^(W−1) ≤ L ≤ 2^(W−1) − 1, and `VALID_LITERAL` panics outside that
range; in particular for `i8` the literal 2 yields 2, −20 yields −20, and
−200 aborts compilation. -/
theorem c3_signed_builtin_range (t : RustIntTy) (ht : t ∈ signedTypes)
    (L : Int) (hL : -(2 ^ 127) ≤ L ∧ L < 2 ^ 127) :
    (FromLiteralSigned.into_self t L = some L ↔
      -(2 ^ (t.width - 1)) ≤ L ∧ L ≤ 2 ^ (t.width - 1) - 1) ∧
    ((L < -(2 ^ (t.width - 1)) ∨ 2 ^ (t.width - 1) - 1 < L) →
      FromLiteralSigned.VALID_LITERAL t L = none) ∧
    FromLiteralSigned.into_self i8 2 = some 2 ∧
    FromLiteralSigned.into_self i8 (-20) = some (-20) ∧
    FromLiteralSigned.VALID_LITERAL i8 (-200) = none := by
  have hex1 : FromLiteralSigned.into_self i8 2 = some 2 := by
    set_option maxRecDepth 10000 in rfl
  have hex2 : FromLiteralSigned.into_self i8 (-20) = some (-20) := by
    set_option maxRecDepth 10000 in rfl
  have hex3 : FromLiteralSigned.VALID_LITERAL i8 (-200) = none := by
    set_option maxRecDepth 10000 in rfl
  simp only [signedTypes, List.mem_cons, List.not_mem_nil, or_false] at ht
  rcases ht with rfl | rfl | rfl | rfl | rfl | rfl
  · exact ⟨(c3_helper 8 (by norm_num) (by norm_num) L).1,
      (c3_helper 8 (by norm_num) (by norm_num) L).2, hex1, hex2, hex3⟩
  · exact ⟨(c3_helper 16 (by norm_num) (by norm_num) L).1,
      (c3_helper 16 (by norm_num) (by norm_num) L).2, hex1, hex2, hex3⟩
  · exact ⟨(c3_helper 32 (by norm_num) (by norm_num) L).1,
      (c3_helper 32 (by norm_num) (by norm_num) L).2, hex1, hex2, hex3⟩
  · exact ⟨(c3_helper 64 (by norm_num) (by norm_num) L).1,
      (c3_helper 64 (by norm_num) (by norm_num) L).2, hex1, hex2, hex3⟩
  · exact ⟨(c3_helper 128 (by norm_num) (by norm_num) L).1,
      (c3_helper 128 (by norm_num) (by norm_num) L).2, hex1, hex2, hex3⟩
  · exact ⟨(c3_helper 64 (by norm_num) (by norm_num) L).1,
      (c3_helper 64 (by norm_num) (by norm_num) L).2, hex1, hex2, hex3⟩

/-- Witness for C3 at the concrete instance `i8`, `L = -20`. -/
theorem c3_signed_builtin_range_witness :
    i8 ∈ signedTypes ∧ (-(2 ^ 127) ≤ (-20 : Int) ∧ (-20 : Int) < 2 ^ 127) ∧
    ((FromLiteralSigned.into_self i8 (-20) = some (-20) ↔
      -(2 ^ (i8.width - 1)) ≤ (-20 : Int) ∧
        (-20 : Int) ≤ 2 ^ (i8.width - 1) - 1) ∧
    (((-20 : Int) < -(2 ^ (i8.width - 1)) ∨
        2 ^ (i8.width - 1) - 1 < (-20 : Int)) →
      FromLiteralSigned.VALID_LITERAL i8 (-20) = none) ∧
    FromLiteralSigned.into_self i8 2 = some 2 ∧
    FromLiteralSigned.into_self i8 (-20) = some (-20) ∧
    FromLiteralSigned.VALID_LITERAL i8 (-200) = none) :=
  ⟨by decide, by norm_num,
    c3_signed_builtin_range i8 (by decide) (-20) (by norm_num)⟩

section NonZeroHelpers

theorem nonzero_unsigned_VALID_spec (t : RustIntTy) (LIT : Nat) :
    NonZeroFromLiteralUnsigned.VALID_LITERAL t LIT =
      if LIT = 0 ∨ asU128 (tyMax t) < LIT then none else some LIT := by
  unfold NonZeroFromLiteralUnsigned.VALID_LITERAL
  dsimp only
  split_ifs <;> tauto

theorem nonzero_signed_VALID_spec (t : RustIntTy) (LIT : Int) :
    NonZeroFromLiteralSigned.VALID_LITERAL t LIT =
      if LIT = 0 ∨ LIT < asI128 (tyMin t) ∨ asI128 (tyMax t) < LIT then none
      else some LIT := by
  unfold NonZeroFromLiteralSigned.VALID_LITERAL
  dsimp only
  split_ifs <;> tauto

theorem asU128_tyMax_lt_iff (w : Nat) (s : Bool) (hw1 : 1 ≤ w) (hw : w ≤ 128)
    (LIT : Nat) :
    asU128 (tyMax ⟨w, s⟩) < LIT ↔ tyMax ⟨w, s⟩ < (LIT : Int) := by
  cases s
  · rw [asU128_tyMax_unsigned w hw]
    have hcast := two_pow_cast w
    have h1 : (1 : Nat) ≤ 2 ^ w := Nat.one_le_two_pow
    have htmax : tyMax ⟨w, false⟩ = (2 : Int) ^ w - 1 := by simp [tyMax]
    rw [htmax]
    omega
  · rw [asU128_tyMax_signed w hw1 hw]
    have hcast := two_pow_cast (w - 1)
    have h1 : (1 : Nat) ≤ 2 ^ (w - 1) := Nat.one_le_two_pow
    have htmax : tyMax ⟨w, true⟩ = (2 : Int) ^ (w - 1) - 1 := by simp [tyMax]
    rw [htmax]
    omega

theorem c4_unsigned_contract_helper (w : Nat) (s : Bool) (hw1 : 1 ≤ w)
    (hw : w ≤ 128) (LIT : Nat) :
    (NonZeroFromLiteralUnsigned.VALID_LITERAL ⟨w, s⟩ LIT = none ↔
      LIT = 0 ∨ tyMax ⟨w, s⟩ < (LIT : Int)) ∧
    (¬(LIT = 0 ∨ tyMax ⟨w, s⟩ < (LIT : Int)) →
      NonZeroFromLiteralUnsigned.into_self ⟨w, s⟩ LIT =
        some (new_unchecked (LIT : Int))) := by
  have hspec := nonzero_unsigned_VALID_spec ⟨w, s⟩ LIT
  have hiff := asU128_tyMax_lt_iff w s hw1 hw LIT
  have hcond : (LIT = 0 ∨ asU128 (tyMax ⟨w, s⟩) < LIT) ↔
      (LIT = 0 ∨ tyMax ⟨w, s⟩ < (LIT : Int)) := or_congr Iff.rfl hiff
  constructor
  · rw [hspec]
    split_ifs with h
    · exact iff_of_true rfl (hcond.mp h)
    · exact iff_of_false (by simp) fun hr => h (hcond.mpr hr)
  · intro hn
    unfold NonZeroFromLiteralUnsigned.into_self
    rw [hspec, if_neg fun hc => hn (hcond.mp hc), Option.map_some']
    push_neg at hn
    have hval : u128AsType ⟨w, s⟩ LIT = (LIT : Int) := by
      apply u128AsType_eq_self
      · dsimp only
        cases s
        · rw [show tyMax ⟨w, false⟩ = (2 : Int) ^ w - 1 from by simp [tyMax]]
            at hn
          have hcast := two_pow_cast w
          have h1 : (1 : Nat) ≤ 2 ^ w := Nat.one_le_two_pow
          omega
        · rw [show tyMax ⟨w, true⟩ = (2 : Int) ^ (w - 1) - 1 from by
            simp [tyMax]] at hn
          have hcast := two_pow_cast (w - 1)
          have h1 : (1 : Nat) ≤ 2 ^ (w - 1) := Nat.one_le_two_pow
          have hmono : 2 ^ (w - 1) ≤ 2 ^ w :=
            Nat.pow_le_pow_right (by norm_num) (by omega)
          omega
      · intro hsg
        dsimp only
        cases s
        · exact Bool.noConfusion hsg
        · rw [show tyMax ⟨w, true⟩ = (2 : Int) ^ (w - 1) - 1 from by
            simp [tyMax]] at hn
          have hcast := two_pow_cast (w - 1)
          have h1 : (1 : Nat) ≤ 2 ^ (w - 1) := Nat.one_le_two_pow
          omega
    rw [hval]

theorem c4_signed_contract_helper (w : Nat) (hw1 : 1 ≤ w) (hw : w ≤ 128)
    (LIT : Int) :
    (NonZeroFromLiteralSigned.VALID_LITERAL ⟨w, true⟩ LIT = none ↔
      LIT = 0 ∨ LIT < tyMin ⟨w, true⟩ ∨ tyMax ⟨w, true⟩ < LIT) ∧
    (¬(LIT = 0 ∨ LIT < tyMin ⟨w, true⟩ ∨ tyMax ⟨w, true⟩ < LIT) →
      NonZeroFromLiteralSigned.into_self ⟨w, true⟩ LIT =
        some (new_unchecked LIT)) := by
  have hspec := nonzero_signed_VALID_spec ⟨w, true⟩ LIT
  rw [asI128_tyMin_signed w hw1 hw, asI128_tyMax_signed w hw1 hw] at hspec
  have hmin : tyMin ⟨w, true⟩ = -((2 : Int) ^ (w - 1)) := by simp [tyMin]
  have hmax : tyMax ⟨w, true⟩ = (2 : Int) ^ (w - 1) - 1 := by simp [tyMax]
  rw [hmin, hmax]
  constructor
  · rw [hspec]
    split_ifs with h
    · exact iff_of_true rfl h
    · exact iff_of_false (by simp) h
  · intro hn
    unfold NonZeroFromLiteralSigned.into_self
    rw [hspec, if_neg hn, Option.map_some']
    push_neg at hn
    rw [i128AsType_eq_self_signed w hw1 LIT (by omega) (by omega)]

end NonZeroHelpers

/-- The host types of the `nonzero_unsigned_impl!` instantiations:
`NonZeroU8..NonZeroUsize` and `NonZeroI8..NonZeroIsize` all receive the
unsigned contract. -/
def nonzeroUnsignedHosts : List RustIntTy :=
  [u8, u16, u32, u64, u128, usize, i8, i16, i32, i64, i128, isize]

/-- C4: for every non-zero wrapper (any host type under the unsigned
contract, signed host types under the signed contract), `VALID_LITERAL`
panics exactly when the literal is 0 or outside the host type's range, and
when it compiles `into_self` builds the wrapper by passing exactly the
literal to the unchecked non-zero constructor; in particular the literal 0
for `NonZeroU8` aborts compilation. -/
theorem c4_nonzero_wrapper_range (t : RustIntTy) (ht : t ∈ nonzeroUnsignedHosts)
    (LIT : Nat) (hLIT : LIT < 2 ^ 128)
    (s : RustIntTy) (hs : s ∈ signedTypes) (LITs : Int)
    (hLITs : -(2 ^ 127) ≤ LITs ∧ LITs < 2 ^ 127) :
    ((NonZeroFromLiteralUnsigned.VALID_LITERAL t LIT = none ↔
      LIT = 0 ∨ tyMax t < (LIT : Int)) ∧
    (¬(LIT = 0 ∨ tyMax t < (LIT : Int)) →
      NonZeroFromLiteralUnsigned.into_self t LIT =
        some (new_unchecked (LIT : Int)))) ∧
    ((NonZeroFromLiteralSigned.VALID_LITERAL s LITs = none ↔
      LITs = 0 ∨ LITs < tyMin s ∨ tyMax s < LITs) ∧
    (¬(LITs = 0 ∨ LITs < tyMin s ∨ tyMax s < LITs) →
      NonZeroFromLiteralSigned.into_self s LITs =
        some (new_unchecked LITs))) ∧
    NonZeroFromLiteralUnsigned.VALID_LITERAL u8 0 = none := by
  refine ⟨?_, ?_, rfl⟩
  · simp only [nonzeroUnsignedHosts, List.mem_cons, List.not_mem_nil,
      or_false] at ht
    rcases ht with rfl|rfl|rfl|rfl|rfl|rfl|rfl|rfl|rfl|rfl|rfl|rfl
    · exact c4_unsigned_contract_helper 8 false (by norm_num) (by norm_num) LIT
    · exact c4_unsigned_contract_helper 16 false (by norm_num) (by norm_num) LIT
    · exact c4_unsigned_contract_helper 32 false (by norm_num) (by norm_num) LIT
    · exact c4_unsigned_contract_helper 64 false (by norm_num) (by norm_num) LIT
    · exact c4_unsigned_contract_helper 128 false (by norm_num) (by norm_num) LIT
    · exact c4_unsigned_contract_helper 64 false (by norm_num) (by norm_num) LIT
    · exact c4_unsigned_contract_helper 8 true (by norm_num) (by norm_num) LIT
    · exact c4_unsigned_contract_helper 16 true (by norm_num) (by norm_num) LIT
    · exact c4_unsigned_contract_helper 32 true (by norm_num) (by norm_num) LIT
    · exact c4_unsigned_contract_helper 64 true (by norm_num) (by norm_num) LIT
    · exact c4_unsigned_contract_helper 128 true (by norm_num) (by norm_num) LIT
    · exact c4_unsigned_contract_helper 64 true (by norm_num) (by norm_num) LIT
  · simp only [signedTypes, List.mem_cons, List.not_mem_nil, or_false] at hs
    rcases hs with rfl|rfl|rfl|rfl|rfl|rfl
    · exact c4_signed_contract_helper 8 (by norm_num) (by norm_num) LITs
    · exact c4_signed_contract_helper 16 (by norm_num) (by norm_num) LITs
    · exact c4_signed_contract_helper 32 (by norm_num) (by norm_num) LITs
    · exact c4_signed_contract_helper 64 (by norm_num) (by norm_num) LITs
    · exact c4_signed_contract_helper 128 (by norm_num) (by norm_num) LITs
    · exact c4_signed_contract_helper 64 (by norm_num) (by norm_num) LITs

/-- Witness for C4 at `NonZeroU8` (host `u8`) with literal 10 and
`NonZeroI8` (host `i8`) with literal −5. -/
theorem c4_nonzero_wrapper_range_witness :
    u8 ∈ nonzeroUnsignedHosts ∧ (10 : Nat) < 2 ^ 128 ∧
    i8 ∈ signedTypes ∧ (-(2 ^ 127) ≤ (-5 : Int) ∧ (-5 : Int) < 2 ^ 127) ∧
    (((NonZeroFromLiteralUnsigned.VALID_LITERAL u8 10 = none ↔
      (10 : Nat) = 0 ∨ tyMax u8 < ((10 : Nat) : Int)) ∧
    (¬((10 : Nat) = 0 ∨ tyMax u8 < ((10 : Nat) : Int)) →
      NonZeroFromLiteralUnsigned.into_self u8 10 =
        some (new_unchecked ((10 : Nat) : Int)))) ∧
    ((NonZeroFromLiteralSigned.VALID_LITERAL i8 (-5) = none ↔
      (-5 : Int) = 0 ∨ (-5 : Int) < tyMin i8 ∨ tyMax i8 < (-5 : Int)) ∧
    (¬((-5 : Int) = 0 ∨ (-5 : Int) < tyMin i8 ∨ tyMax i8 < (-5 : Int)) →
      NonZeroFromLiteralSigned.into_self i8 (-5) =
        some (new_unchecked (-5)))) ∧
    NonZeroFromLiteralUnsigned.VALID_LITERAL u8 0 = none) :=
  ⟨by decide, by norm_num, by decide, by norm_num,
    c4_nonzero_wrapper_range u8 (by decide) 10 (by norm_num)
      i8 (by decide) (-5) (by norm_num)⟩

/-- Modelled from the spec: the Type-Level String encoding of the `type_str`
module (declared as `pub mod type_str;` in lib.rs; its source file is not in
the repository snapshot). A Type-Level String is an inductive list of byte
markers (`TNil` / `TCons (Byte VAL) tail`, each marker a value in [0, 255]);
per the spec its one operation projects the marker sequence to the canonical
runtime string slice, whose UTF-8 bytes are exactly the marker values in
order, the empty marker list projecting to the empty string. Strings are
modelled by their UTF-8 byte sequences, so the projection yields the byte
list itself. -/
inductive TStr where
  | tnil : TStr
  | tcons (b : Nat) (tail : TStr) : TStr
deriving DecidableEq

/-- Modelled from the spec: `TypeStr::STR`, the projection of a Type-Level
String to the byte sequence of its runtime string slice. -/
def TStr.STR : TStr → List Nat
  | .tnil => []
  | .tcons b tail => b :: TStr.STR tail

/-- The Type-Level String encoding of a byte sequence, i.e. the
`TList![Byte<b0>, Byte<b1>, ...]` form the rewriting macro produces for a
string literal with those UTF-8 bytes. -/
def encodeTStr : List Nat → TStr
  | [] => .tnil
  | b :: rest => .tcons b (encodeTStr rest)

theorem encodeTStr_STR (B : List Nat) : TStr.STR (encodeTStr B) = B := by
  induction B with
  | nil => rfl
  | cons b rest ih => simp [encodeTStr, TStr.STR, ih]

/-- The byte-comparison `while index < len` loop inside `const_str_eq`. -/
def const_str_eq_loop (lhs rhs : List Nat) (len index : Nat) : Bool :=
  if index < len then
    if lhs.getD index 0 ≠ rhs.getD index 0 then false
    else const_str_eq_loop lhs rhs len (index + 1)
  else true
termination_by len - index
decreasing_by omega

/-- Embedding of const_str_eq: compile-time byte-exact string comparison on the two
strings' UTF-8 byte sequences; false when the lengths differ, otherwise
every byte is compared in order. -/
def const_str_eq (lhs rhs : List Nat) : Bool :=
  if lhs.length ≠ rhs.length then false
  else const_str_eq_loop lhs rhs lhs.length 0

theorem const_str_eq_loop_iff (lhs rhs : List Nat) (len : Nat) :
    ∀ d i, len - i ≤ d →
      (const_str_eq_loop lhs rhs len i = true ↔
        ∀ j, i ≤ j → j < len → lhs.getD j 0 = rhs.getD j 0) := by
  intro d
  induction d with
  | zero =>
    intro i hi
    unfold const_str_eq_loop
    rw [if_neg (by omega)]
    simp only [true_iff]
    intro j hij hj
    omega
  | succ d ih =>
    intro i hi
    unfold const_str_eq_loop
    by_cases h : i < len
    · rw [if_pos h]
      by_cases hb : lhs.getD i 0 = rhs.getD i 0
      · rw [if_neg (not_not_intro hb), ih (i + 1) (by omega)]
        constructor
        · intro hall j hij hj
          rcases Nat.eq_or_lt_of_le hij with rfl | hlt
          · exact hb
          · exact hall j hlt hj
        · intro hall j hij hj
          exact hall j (by omega) hj
      · rw [if_pos hb]
        constructor
        · intro hfalse
          exact absurd hfalse (by simp)
        · intro hall
          exact absurd (hall i le_rfl h) hb
    · rw [if_neg h]
      simp only [true_iff]
      intro j hij hj
      omega

theorem list_eq_of_getD (lhs rhs : List Nat) (hlen : lhs.length = rhs.length)
    (h : ∀ j, j < lhs.length → lhs.getD j 0 = rhs.getD j 0) : lhs = rhs := by
  induction lhs generalizing rhs with
  | nil =>
    cases rhs with
    | nil => rfl
    | cons b bs => simp at hlen
  | cons a as ih =>
    cases rhs with
    | nil => simp at hlen
    | cons b bs =>
      have h0 := h 0 (by simp)
      rw [List.getD_cons_zero, List.getD_cons_zero] at h0
      have htail : as = bs := by
        apply ih
        · simpa using hlen
        · intro j hj
          have hstep := h (j + 1) (by simpa using Nat.succ_lt_succ hj)
          rwa [List.getD_cons_succ, List.getD_cons_succ] at hstep
      rw [h0, htail]

theorem const_str_eq_iff_eq (lhs rhs : List Nat) :
    const_str_eq lhs rhs = true ↔ lhs = rhs := by
  unfold const_str_eq
  by_cases hlen : lhs.length = rhs.length
  · rw [if_neg (not_not_intro hlen)]
    rw [const_str_eq_loop_iff lhs rhs lhs.length lhs.length 0 (by omega)]
    constructor
    · intro hall
      exact list_eq_of_getD lhs rhs hlen fun j hj => hall j (by omega) hj
    · intro heq
      subst heq
      intro j hij hj
      rfl
  · rw [if_pos hlen]
    constructor
    · intro hf
      exact absurd hf (by simp)
    · intro heq
      exact absurd (congrArg List.length heq) hlen

theorem const_str_eq_len_ne (lhs rhs : List Nat)
    (h : lhs.length ≠ rhs.length) : const_str_eq lhs rhs = false := by
  unfold const_str_eq
  rw [if_pos h]

/-- UTF-8 bytes of the keyword string "hello". -/
def helloBytes : List Nat := [104, 101, 108, 108, 111]

/-- UTF-8 bytes of the keyword string "goodbye". -/
def goodbyeBytes : List Nat := [103, 111, 111, 100, 98, 121, 101]

/-- The example enum of lib.rs demonstrating the string contract. -/
inductive Greeting where
  | Hello : Greeting
  | Goodbye : Greeting
deriving DecidableEq

/-- The impl of FromLiteralStr for Greeting: its VALID_LITERAL projects the
Type-Level String and accepts it exactly when `const_str_eq` matches "hello"
or "goodbye", otherwise it panics (`none`). -/
def Greeting.VALID_LITERAL (Str : TStr) : Option (List Nat) :=
  let val := TStr.STR Str
  if const_str_eq val helloBytes || const_str_eq val goodbyeBytes then some val
  else none

/-- Greeting's into_self: matches the validated literal against "hello" and
"goodbye"; the wildcard arm is `unreachable!()`, modelled as `none`. -/
def Greeting.into_self (Str : TStr) : Option Greeting :=
  (Greeting.VALID_LITERAL Str).bind fun string =>
    if string = helloBytes then some Greeting.Hello
    else if string = goodbyeBytes then some Greeting.Goodbye
    else none

/-- The impl of FromLiteralStr for a borrowed str slice (the base definition):
no validation, VALID_LITERAL is the projection unchanged. -/
def str_VALID_LITERAL (Str : TStr) : Option (List Nat) :=
  some (TStr.STR Str)

/-- The into_self of the borrowed str slice impl: returns VALID_LITERAL itself. -/
def str_into_self (Str : TStr) : Option (List Nat) :=
  str_VALID_LITERAL Str

/-- The impl of FromLiteralStr for String: no validation either. -/
def string_VALID_LITERAL (Str : TStr) : Option (List Nat) :=
  some (TStr.STR Str)

/-- Rust str's to_string method: an owned copy with the same byte content. -/
def to_string (s : List Nat) : List Nat := s

/-- `into_self` for `String`: `VALID_LITERAL.to_string()`. -/
def string_into_self (Str : TStr) : Option (List Nat) :=
  (string_VALID_LITERAL Str).map to_string

/-- C7: round-trip of the Type-Level String encoding — for every finite byte
sequence B (bytes in [0,255], empty included) the projection `STR` of its
marker-list encoding yields exactly B, in order, with no added or dropped
bytes, and the empty marker list projects to the empty string. -/
theorem c7_type_str_round_trip (B : List Nat) (hB : ∀ b ∈ B, b < 256) :
    TStr.STR (encodeTStr B) = B ∧ TStr.STR TStr.tnil = [] :=
  ⟨encodeTStr_STR B, rfl⟩

/-- Witness for C7 at the bytes of "hello". -/
theorem c7_type_str_round_trip_witness :
    (∀ b ∈ helloBytes, b < 256) ∧
    (TStr.STR (encodeTStr helloBytes) = helloBytes ∧ TStr.STR TStr.tnil = []) :=
  ⟨by decide, c7_type_str_round_trip helloBytes (by decide)⟩

/-- C8: `const_str_eq lhs rhs` is true exactly when the two byte sequences
are identical — a decision procedure for byte-exact equality with no locale
handling or normalization — and it is false whenever the lengths differ. -/
theorem c8_const_str_eq_decides_equality (lhs rhs : List Nat) :
    (const_str_eq lhs rhs = true ↔ lhs = rhs) ∧
    (lhs.length ≠ rhs.length → const_str_eq lhs rhs = false) :=
  ⟨const_str_eq_iff_eq lhs rhs, const_str_eq_len_ne lhs rhs⟩

/-- Witness for C8 on "hello" vs "goodbye". -/
theorem c8_const_str_eq_decides_equality_witness :
    ((const_str_eq helloBytes goodbyeBytes = true ↔ helloBytes = goodbyeBytes) ∧
    (helloBytes.length ≠ goodbyeBytes.length →
      const_str_eq helloBytes goodbyeBytes = false)) ∧
    helloBytes.length ≠ goodbyeBytes.length :=
  ⟨c8_const_str_eq_decides_equality helloBytes goodbyeBytes, by decide⟩

/-- C9: the base string-contract conformances for borrowed str and String
perform no validation: `VALID_LITERAL` is `Str::STR` for every Type-Level
String (never panicking), into_self for the borrowed slice returns exactly that
slice, and into_self for String returns an owned string with the same
content. -/
theorem c9_base_str_impls_no_validation (Str : TStr) :
    str_VALID_LITERAL Str = some (TStr.STR Str) ∧
    str_into_self Str = some (TStr.STR Str) ∧
    string_VALID_LITERAL Str = some (TStr.STR Str) ∧
    string_into_self Str = some (TStr.STR Str) :=
  ⟨rfl, rfl, rfl, rfl⟩

theorem greeting_hello (Str : TStr) (h : TStr.STR Str = helloBytes) :
    Greeting.into_self Str = some Greeting.Hello := by
  unfold Greeting.into_self Greeting.VALID_LITERAL
  dsimp only
  rw [h, if_pos (by simp [Bool.or_eq_true, const_str_eq_iff_eq]),
    Option.some_bind, if_pos rfl]

theorem greeting_goodbye (Str : TStr) (h : TStr.STR Str = goodbyeBytes) :
    Greeting.into_self Str = some Greeting.Goodbye := by
  unfold Greeting.into_self Greeting.VALID_LITERAL
  dsimp only
  rw [h, if_pos (by simp [Bool.or_eq_true, const_str_eq_iff_eq]),
    Option.some_bind, if_neg (by decide), if_pos rfl]

theorem greeting_valid_goodbye (Str : TStr) (h : TStr.STR Str = goodbyeBytes) :
    Greeting.VALID_LITERAL Str = some goodbyeBytes := by
  unfold Greeting.VALID_LITERAL
  dsimp only
  rw [h, if_pos (by simp [Bool.or_eq_true, const_str_eq_iff_eq])]

theorem greeting_invalid (Str : TStr) (h1 : TStr.STR Str ≠ helloBytes)
    (h2 : TStr.STR Str ≠ goodbyeBytes) :
    Greeting.VALID_LITERAL Str = none := by
  unfold Greeting.VALID_LITERAL
  dsimp only
  rw [if_neg (by simp only [Bool.or_eq_true, const_str_eq_iff_eq]; tauto)]

/-- C5: the Greeting conformance accepts exactly the byte-exact,
case-sensitive keywords "hello" and "goodbye": projecting to "hello" makes
`into_self` return `Greeting::Hello`, "goodbye" gives `Greeting::Goodbye`,
and any other projected content — e.g. "Hello" or "hell" — makes
`VALID_LITERAL` panic, failing compilation. -/
theorem c5_greeting_exact_keywords (Str : TStr) :
    (TStr.STR Str = helloBytes → Greeting.into_self Str = some Greeting.Hello) ∧
    (TStr.STR Str = goodbyeBytes →
      Greeting.into_self Str = some Greeting.Goodbye) ∧
    (TStr.STR Str ≠ helloBytes ∧ TStr.STR Str ≠ goodbyeBytes →
      Greeting.VALID_LITERAL Str = none) ∧
    Greeting.VALID_LITERAL (encodeTStr [72, 101, 108, 108, 111]) = none ∧
    Greeting.VALID_LITERAL (encodeTStr [104, 101, 108, 108]) = none :=
  ⟨greeting_hello Str, greeting_goodbye Str,
    fun hp => greeting_invalid Str hp.1 hp.2,
    greeting_invalid (encodeTStr [72, 101, 108, 108, 111]) (by decide)
      (by decide),
    greeting_invalid (encodeTStr [104, 101, 108, 108]) (by decide) (by decide)⟩

/-- Witness for C5 at the Type-Level String encoding "hello". -/
theorem c5_greeting_exact_keywords_witness :
    TStr.STR (encodeTStr helloBytes) = helloBytes ∧
    Greeting.into_self (encodeTStr helloBytes) = some Greeting.Hello :=
  ⟨by decide,
    (c5_greeting_exact_keywords (encodeTStr helloBytes)).1 (by decide)⟩

/-- C10: `Greeting::into_self` never reaches its `unreachable!()` wildcard
arm: whenever `VALID_LITERAL` evaluated successfully (forcing the projected
string to be "hello" or "goodbye"), `into_self` returns `Greeting::Hello`
or `Greeting::Goodbye`. -/
theorem c10_greeting_into_self_never_unreachable (Str : TStr)
    (h : Greeting.VALID_LITERAL Str ≠ none) :
    Greeting.into_self Str = some Greeting.Hello ∨
    Greeting.into_self Str = some Greeting.Goodbye := by
  by_cases hh : TStr.STR Str = helloBytes
  · exact Or.inl (greeting_hello Str hh)
  · by_cases hg : TStr.STR Str = goodbyeBytes
    · exact Or.inr (greeting_goodbye Str hg)
    · exact absurd (greeting_invalid Str hh hg) h

/-- Witness for C10 at the encoding of "goodbye". -/
theorem c10_greeting_into_self_never_unreachable_witness :
    Greeting.VALID_LITERAL (encodeTStr goodbyeBytes) ≠ none ∧
    (Greeting.into_self (encodeTStr goodbyeBytes) = some Greeting.Hello ∨
    Greeting.into_self (encodeTStr goodbyeBytes) = some Greeting.Goodbye) :=
  ⟨by rw [greeting_valid_goodbye (encodeTStr goodbyeBytes) (by decide)]
      simp,
    c10_greeting_into_self_never_unreachable (encodeTStr goodbyeBytes)
      (by rw [greeting_valid_goodbye (encodeTStr goodbyeBytes) (by decide)]
          simp)⟩

/-- The target types that receive dispatch-contract impls in lib.rs. -/
inductive TargetTy where
  | U8 | U16 | U32 | U64 | U128 | Usize
  | I8 | I16 | I32 | I64 | I128 | Isize
  | NonZeroU8 | NonZeroU16 | NonZeroU32 | NonZeroU64 | NonZeroU128
  | NonZeroUsize
  | NonZeroI8 | NonZeroI16 | NonZeroI32 | NonZeroI64 | NonZeroI128
  | NonZeroIsize
  | StrSlice | OwnedString | GreetingTy
deriving DecidableEq

/-- The three dispatch contracts of lib.rs. -/
inductive Contract where
  | unsigned | signed | str
deriving DecidableEq

/-- The exact set of (target type, contract) conformances declared in
lib.rs: FromLiteralStr for the borrowed str slice, String and Greeting;
`unsigned_impl!` for u8..usize and i8..isize; `signed_impl!` for i8..isize;
`nonzero_unsigned_impl!` for all twelve NonZero wrappers; and
`nonzero_signed_impl!` for NonZeroI8..NonZeroIsize only. -/
def conformances : List (TargetTy × Contract) :=
  [(.StrSlice, .str), (.OwnedString, .str), (.GreetingTy, .str),
   (.U8, .unsigned), (.U16, .unsigned), (.U32, .unsigned),
   (.U64, .unsigned), (.U128, .unsigned), (.Usize, .unsigned),
   (.I8, .unsigned), (.I16, .unsigned), (.I32, .unsigned),
   (.I64, .unsigned), (.I128, .unsigned), (.Isize, .unsigned),
   (.I8, .signed), (.I16, .signed), (.I32, .signed),
   (.I64, .signed), (.I128, .signed), (.Isize, .signed),
   (.NonZeroU8, .unsigned), (.NonZeroU16, .unsigned),
   (.NonZeroU32, .unsigned), (.NonZeroU64, .unsigned),
   (.NonZeroU128, .unsigned), (.NonZeroUsize, .unsigned),
   (.NonZeroI8, .unsigned), (.NonZeroI16, .unsigned),
   (.NonZeroI32, .unsigned), (.NonZeroI64, .unsigned),
   (.NonZeroI128, .unsigned), (.NonZeroIsize, .unsigned),
   (.NonZeroI8, .signed), (.NonZeroI16, .signed), (.NonZeroI32, .signed),
   (.NonZeroI64, .signed), (.NonZeroI128, .signed), (.NonZeroIsize, .signed)]

/-- The unsigned target types named by the claim: plain u8..usize and
NonZeroU8..NonZeroUsize. -/
def unsignedTargets : List TargetTy :=
  [.U8, .U16, .U32, .U64, .U128, .Usize,
   .NonZeroU8, .NonZeroU16, .NonZeroU32, .NonZeroU64, .NonZeroU128,
   .NonZeroUsize]

/-- C6 counterexample: `u8` is an unsigned target type, yet lib.rs declares
no `FromLiteralSigned` conformance for it (`signed_impl!` is instantiated
only for i8..isize), refuting "every unsigned target type conforms to both
contracts". -/
theorem c6_counterexample_u8_not_signed :
    (TargetTy.U8, Contract.signed) ∉ conformances := by decide

/-- C6 amended: every unsigned target type (plain u8..usize and
NonZeroU8..NonZeroUsize) conforms to the unsigned contract and to no other:
none of them has a signed-contract conformance, so a genuinely negative
literal bound to such a type fails compilation because no
`FromLiteralSigned` impl exists, not because a signed range check runs and
fails. -/
theorem c6_unsigned_targets_unsigned_only (t : TargetTy)
    (ht : t ∈ unsignedTargets) :
    (t, Contract.unsigned) ∈ conformances ∧
    (t, Contract.signed) ∉ conformances := by
  fin_cases ht <;> exact ⟨by decide, by decide⟩

/-- Witness for the amended C6 at `u8`. -/
theorem c6_unsigned_targets_unsigned_only_witness :
    TargetTy.U8 ∈ unsignedTargets ∧
    ((TargetTy.U8, Contract.unsigned) ∈ conformances ∧
    (TargetTy.U8, Contract.signed) ∉ conformances) :=
  ⟨by decide, c6_unsigned_targets_unsigned_only TargetTy.U8 (by decide)⟩
